import Mathlib

/-!
# Verification of the YTN news crawler (`src/desktop/core/crawler.py`)

Shallow embedding of the concurrent crawl-and-extract pipeline of the
`CrawlerThread` class: the content sanitizer (`clean_content`), the field
extractors (`extract_title`, `extract_content`, `extract_category`,
`extract_published`, `extract_author`, `extract_email`), URL discovery
(`get_news_urls`), the per-article fetcher (`crawl_single_news_safe`) and the
orchestrator (`crawl_ytn_news`).

Strings are modelled as Lean `String` (a list of unicode code points, matching
Python 3 `str` where `len` counts code points).  The network and the HTML
parser are external collaborators: a fetch is modelled by its outcome
(`Except FetchError Soup`), and a parsed page (`Soup`) by the text content of
each CSS selector the extractors query (`none` when `select_one` finds no
element).  The two regular expressions used on article text are small enough
that their Python backtracking semantics is reproduced exactly by executable
maximal-munch matchers (every quantifier in those patterns is followed by a
character class disjoint from the quantified class, so the greedy match is the
only candidate; the remaining choice points — the optional non-capturing group
and the greedy `{2,4}` counted repetition under a lookahead — are tried in
Python's order).
-/

set_option maxRecDepth 4000
set_option linter.unusedVariables false

/-! ## Content sanitizer: `clean_content` (crawler.py lines 404–411)

Python: `re.sub(r'\s+', ' ', content).strip()` guarded by `if not content`.
`pySpace` is the exact character set matched by Python 3's `\s` on `str`
(which coincides with the set stripped by `str.strip()`). -/

/-- Characters matched by Python 3's regex `\s` on `str` (ASCII whitespace,
the information-separator block, NEL, NBSP and the Unicode space characters). -/
def pySpace (c : Char) : Bool :=
  c.toNat == 0x20 || (0x9 ≤ c.toNat && c.toNat ≤ 0xD) ||
  (0x1C ≤ c.toNat && c.toNat ≤ 0x1F) || c.toNat == 0x85 || c.toNat == 0xA0 ||
  c.toNat == 0x1680 || (0x2000 ≤ c.toNat && c.toNat ≤ 0x200A) ||
  c.toNat == 0x2028 || c.toNat == 0x2029 || c.toNat == 0x202F ||
  c.toNat == 0x205F || c.toNat == 0x3000

/-- `re.sub(r'\s+', ' ', ·)`: replace every maximal run of whitespace by one
space.  The flag records whether the previous character belonged to a
whitespace run already rewritten. -/
def collapseWs : Bool → List Char → List Char
  | _, [] => []
  | inWs, c :: rest =>
    if pySpace c then
      if inWs then collapseWs true rest else ' ' :: collapseWs true rest
    else c :: collapseWs false rest

/-- Drop the longest run of characters satisfying `p` from the end. -/
def dropEndWhile (p : Char → Bool) (l : List Char) : List Char :=
  (l.reverse.dropWhile p).reverse

/-- Python `str.strip()` on a list of characters. -/
def pyStrip (l : List Char) : List Char :=
  dropEndWhile pySpace (l.dropWhile pySpace)

/-- `CrawlerThread.clean_content` (crawler.py lines 404–411):
`if not content: return ""` then `re.sub(r'\s+', ' ', content).strip()`. -/
def clean_content (content : String) : String :=
  if content = "" then "" else String.mk (pyStrip (collapseWs false content.data))

/-! ### Idempotence of the sanitizer -/

/-- Characterization of the outputs of `collapseWs`: every whitespace
character is a single space, no two adjacent characters are both whitespace,
and (when the flag is `true`) the list does not start with whitespace. -/
def goodFrom : Bool → List Char → Bool
  | _, [] => true
  | inWs, c :: rest =>
    if pySpace c then !inWs && (c == ' ') && goodFrom true rest
    else goodFrom false rest

theorem goodFrom_collapseWs (l : List Char) : ∀ b, goodFrom b (collapseWs b l) = true := by
  induction l with
  | nil => intro b; rfl
  | cons c rest ih =>
    intro b
    by_cases h : pySpace c = true
    · cases b with
      | false =>
        simp only [collapseWs, h, if_true, Bool.false_eq_true, goodFrom]
        simpa [goodFrom, h] using ih true
      | true => simpa [collapseWs, h] using ih true
    · simp only [Bool.not_eq_true] at h
      simpa [collapseWs, goodFrom, h] using ih false

theorem goodFrom_toFalse {b : Bool} {l : List Char} (h : goodFrom b l = true) :
    goodFrom false l = true := by
  cases l with
  | nil => rfl
  | cons c rest =>
    by_cases hc : pySpace c = true
    · cases b with
      | false => exact h
      | true => simp [goodFrom, hc] at h
    · simp only [Bool.not_eq_true] at hc
      simpa [goodFrom, hc] using (by simpa [goodFrom, hc] using h)

theorem goodFrom_tail {b : Bool} {c : Char} {rest : List Char}
    (h : goodFrom b (c :: rest) = true) : goodFrom false rest = true := by
  by_cases hc : pySpace c = true
  · simp only [goodFrom, hc, if_true, Bool.and_eq_true] at h
    exact goodFrom_toFalse h.2
  · simp only [Bool.not_eq_true] at hc
    simpa [goodFrom, hc] using h

theorem goodFrom_dropWhile (p : Char → Bool) (l : List Char) :
    ∀ b, goodFrom b l = true → goodFrom false (l.dropWhile p) = true := by
  induction l with
  | nil => intro b _; rfl
  | cons c rest ih =>
    intro b h
    by_cases hp : p c = true
    · rw [List.dropWhile_cons, if_pos hp]
      exact ih false (goodFrom_tail h)
    · simp only [Bool.not_eq_true] at hp
      rw [List.dropWhile_cons, if_neg (by simp [hp])]
      exact goodFrom_toFalse h

theorem goodFrom_append_left {l₁ l₂ : List Char} :
    ∀ b, goodFrom b (l₁ ++ l₂) = true → goodFrom b l₁ = true := by
  induction l₁ with
  | nil => intro b _; rfl
  | cons c rest ih =>
    intro b h
    by_cases hc : pySpace c = true
    · simp only [List.cons_append, goodFrom, hc, if_true, Bool.and_eq_true] at h ⊢
      exact ⟨⟨h.1.1, h.1.2⟩, ih true h.2⟩
    · simp only [Bool.not_eq_true] at hc
      simp only [List.cons_append, goodFrom, hc] at h ⊢
      simp only [Bool.false_eq_true, if_false] at h ⊢
      exact ih false h

/-- `dropEndWhile` returns an initial segment of its argument. -/
theorem dropEndWhile_append (p : Char → Bool) (l : List Char) :
    ∃ l₂, l = dropEndWhile p l ++ l₂ := by
  refine ⟨(l.reverse.takeWhile p).reverse, ?_⟩
  conv_lhs => rw [← l.reverse_reverse, ← List.takeWhile_append_dropWhile p l.reverse]
  rw [List.reverse_append, dropEndWhile]

theorem goodFrom_dropEndWhile (p : Char → Bool) {l : List Char}
    (h : goodFrom false l = true) : goodFrom false (dropEndWhile p l) = true := by
  obtain ⟨l₂, hl⟩ := dropEndWhile_append p l
  rw [hl] at h
  exact goodFrom_append_left false h

theorem dropWhile_head_not (p : Char → Bool) : ∀ (l : List Char) {c : Char}
    {rest : List Char}, l.dropWhile p = c :: rest → p c = false := by
  intro l
  induction l with
  | nil => intro c rest h; simp at h
  | cons a as ih =>
    intro c rest h
    by_cases ha : p a = true
    · rw [List.dropWhile_cons, if_pos ha] at h
      exact ih h
    · simp only [Bool.not_eq_true] at ha
      rw [List.dropWhile_cons, if_neg (by simp [ha])] at h
      cases h
      exact ha

theorem collapseWs_of_goodFrom : ∀ (l : List Char) (b : Bool),
    goodFrom b l = true → collapseWs b l = l := by
  intro l
  induction l with
  | nil => intro b _; rfl
  | cons c rest ih =>
    intro b h
    by_cases hc : pySpace c = true
    · simp only [goodFrom, hc, if_true, Bool.and_eq_true, Bool.not_eq_true',
        beq_iff_eq] at h
      obtain ⟨⟨hb, hsp⟩, hr⟩ := h
      subst hb
      have hstep : collapseWs false (c :: rest) = ' ' :: collapseWs true rest := by
        simp [collapseWs, hc]
      rw [hstep, ih true hr, hsp]
    · simp only [Bool.not_eq_true] at hc
      simp only [goodFrom, hc, Bool.false_eq_true, if_false] at h
      simp only [collapseWs, hc, Bool.false_eq_true, if_false]
      rw [ih false h]

theorem dropWhile_of_head {p : Char → Bool} {c : Char} {rest : List Char}
    (h : p c = false) : (c :: rest).dropWhile p = c :: rest := by
  rw [List.dropWhile_cons, if_neg (by simp [h])]

/-- On a list that is already collapsed and stripped, `pyStrip` is the
identity. -/
theorem pyStrip_of_good {l : List Char}
    (hhead : ∀ c rest, l = c :: rest → pySpace c = false)
    (hlast : ∀ c rest, l.reverse = c :: rest → pySpace c = false) :
    pyStrip l = l := by
  have h1 : l.dropWhile pySpace = l := by
    cases hl : l with
    | nil => simp
    | cons c rest => exact dropWhile_of_head (hhead c rest hl)
  rw [pyStrip, h1]
  have h2 : l.reverse.dropWhile pySpace = l.reverse := by
    cases hl : l.reverse with
    | nil => simp [hl]
    | cons c rest => exact dropWhile_of_head (hlast c rest hl)
  rw [dropEndWhile, h2, l.reverse_reverse]

/-- Applying collapse-then-strip a second time changes nothing. -/
theorem sanitize_fixed (d : List Char) :
    pyStrip (collapseWs false (pyStrip (collapseWs false d)))
      = pyStrip (collapseWs false d) := by
  have hgoodC : goodFrom false (collapseWs false d) = true := goodFrom_collapseWs d false
  have hgoodA : goodFrom false ((collapseWs false d).dropWhile pySpace) = true :=
    goodFrom_dropWhile pySpace _ false hgoodC
  have hgoodS : goodFrom false (pyStrip (collapseWs false d)) = true :=
    goodFrom_dropEndWhile pySpace hgoodA
  have hhead : ∀ c rest, pyStrip (collapseWs false d) = c :: rest → pySpace c = false := by
    intro c rest hcr
    rw [pyStrip] at hcr
    obtain ⟨l₂, hl₂⟩ := dropEndWhile_append pySpace ((collapseWs false d).dropWhile pySpace)
    have hdw : (collapseWs false d).dropWhile pySpace = c :: (rest ++ l₂) := by
      rw [hl₂, hcr, List.cons_append]
    exact dropWhile_head_not pySpace (collapseWs false d) hdw
  have hlast : ∀ c rest, (pyStrip (collapseWs false d)).reverse = c :: rest →
      pySpace c = false := by
    intro c rest hcr
    have e : (pyStrip (collapseWs false d)).reverse
        = ((collapseWs false d).dropWhile pySpace).reverse.dropWhile pySpace := by
      rw [pyStrip, dropEndWhile, List.reverse_reverse]
    exact dropWhile_head_not pySpace _ (e.symm.trans hcr)
  rw [collapseWs_of_goodFrom _ false hgoodS, pyStrip_of_good hhead hlast]

theorem clean_content_eq (t : String) (ht : t ≠ "") :
    clean_content t = String.mk (pyStrip (collapseWs false t.data)) := by
  rw [clean_content, if_neg ht]

/-- C3: the content sanitizer is idempotent — for every string `s`,
`clean_content (clean_content s) = clean_content s` — and the empty string is
mapped to the empty string (no error is possible: the function is total). -/
theorem clean_content_idempotent :
    (∀ s : String, clean_content (clean_content s) = clean_content s) ∧
    clean_content "" = "" := by
  refine ⟨?_, rfl⟩
  intro s
  by_cases hs : s = ""
  · subst hs; rfl
  · have h1 := clean_content_eq s hs
    by_cases hr : clean_content s = ""
    · rw [hr]; rfl
    · rw [clean_content_eq _ hr, h1]
      exact congrArg String.mk (sanitize_fixed s.data)

/-! ## Author extraction: `extract_author` (crawler.py lines 341–388)

The two byline patterns are
`YTN(?:\s+[a-z]+)?\s+([가-힣]{2,4})(?=입니다|였습니다|습니다|기자|\s|$)` and the
same without the lookahead.  In both patterns every `+`-quantified class is
followed by a class disjoint from it, so Python's backtracking coincides with
maximal munch; the two remaining choice points (the optional non-capturing
group, tried with the group first, and the greedy counted repetition
`{2,4}`, tried from 4 down to 2 against the lookahead) are spelled out. -/

/-- The Hangul-syllable block `[가-힣]` (U+AC00 – U+D7A3). -/
def hangul (c : Char) : Bool :=
  0xAC00 ≤ c.toNat && c.toNat ≤ 0xD7A3

/-- The regex class `[a-z]`. -/
def lowerAlpha (c : Char) : Bool :=
  'a' ≤ c && c ≤ 'z'

/-- `litMatch pat l` is true when `l` starts with the literal `pat`. -/
def litMatch : List Char → List Char → Bool
  | [], _ => true
  | _ :: _, [] => false
  | p :: ps, c :: cs => p == c && litMatch ps cs

/-- Python `str.endswith` on character lists. -/
def endsWith (pat l : List Char) : Bool :=
  litMatch pat.reverse l.reverse

/-- The lookahead `(?=입니다|였습니다|습니다|기자|\s|$)` tested against the rest
of the text (`$` matches at the end of the text or just before one final
newline). -/
def lookaheadOk (l : List Char) : Bool :=
  litMatch "입니다".data l || litMatch "였습니다".data l || litMatch "습니다".data l ||
  litMatch "기자".data l ||
  (match l.head? with | some c => pySpace c | none => false) ||
  l == ([] : List Char) || l == ['\n']

/-- The capturing group `([가-힣]{2,4})`, greedy, optionally guarded by the
lookahead: try four syllables, then three, then two. -/
def hangulCapture (rest : List Char) (useLook : Bool) : Option (List Char) :=
  let run := rest.takeWhile hangul
  if run.length < 2 then none
  else if useLook then
    if 4 ≤ run.length && lookaheadOk (rest.drop 4) then some (run.take 4)
    else if 3 ≤ run.length && lookaheadOk (rest.drop 3) then some (run.take 3)
    else if lookaheadOk (rest.drop 2) then some (run.take 2)
    else none
  else some (run.take 4)

/-- `\s+([가-힣]{2,4})` (with optional lookahead) at text `l`. -/
def tailMatch (l : List Char) (useLook : Bool) : Option (List Char) :=
  let ws := l.takeWhile pySpace
  if ws.length == 0 then none
  else hangulCapture (l.drop ws.length) useLook

/-- The non-capturing group `\s+[a-z]+` followed by `tailMatch`. -/
def groupTailMatch (l : List Char) (useLook : Bool) : Option (List Char) :=
  let ws := l.takeWhile pySpace
  if ws.length == 0 then none
  else
    let afterWs := l.drop ws.length
    let letters := afterWs.takeWhile lowerAlpha
    if letters.length == 0 then none
    else tailMatch (afterWs.drop letters.length) useLook

/-- Both byline patterns after the literal `YTN`: the optional group is
greedy, so the variant with the group is tried first. -/
def matchAtYTN (l : List Char) (useLook : Bool) : Option (List Char) :=
  match groupTailMatch l useLook with
  | some cap => some cap
  | none => tailMatch l useLook

/-- `re.search` for a byline pattern: try every start position left to right;
a position can only match when the text there starts with `YTN`. -/
def reSearchAuthor (useLook : Bool) : List Char → Option (List Char)
  | [] => none
  | c :: rest =>
    if litMatch "YTN".data (c :: rest) then
      match matchAtYTN ((c :: rest).drop 3) useLook with
      | some cap => some cap
      | none => reSearchAuthor useLook rest
    else reSearchAuthor useLook rest

/-- The `patterns` loop of `extract_author`: the lookahead pattern first, the
plain pattern second. -/
def authorSearch (l : List Char) : Option (List Char) :=
  match reSearchAuthor true l with
  | some cap => some cap
  | none => reSearchAuthor false l

/-- The byline suffix list of `extract_author`, in source order. -/
def author_suffixes : List (List Char) :=
  ["입니다".data, "였습니다".data, "습니다".data, "기자입니다".data, "기자".data,
   "입".data, "였".data]

/-- The staff-role blocklist (`forbidden_words`) of `extract_author`. -/
def forbidden_words : List (List Char) :=
  ["취재".data, "취재진".data, "취재팀".data, "취재부".data, "편집".data,
   "제작".data, "기획".data]

/-- The suffix-stripping loop: remove the first suffix of the list that the
candidate ends with (`local_author[:-len(suffix)]`, then `break`). -/
def stripAuthorSuffix (a : List Char) : List Char :=
  match author_suffixes.find? (fun suf => endsWith suf a) with
  | some suf => a.take (a.length - suf.length)
  | none => a

/-- `re.match(r'^[가-힣]+$', ·)` as a boolean: a non-empty all-Hangul string,
allowing one final newline (the Python `$`). -/
def pyFullHangul (l : List Char) : Bool :=
  (!l.isEmpty && l.all hangul) ||
  (l.getLast? == some '\n' && !l.dropLast.isEmpty && l.dropLast.all hangul)

/-- `CrawlerThread.extract_author` (crawler.py lines 341–388): search the two
byline patterns, strip one trailing particle, reject blocklisted staff-role
words, and keep only 2–4 character Hangul names. -/
def extract_author (content : String) : Option String :=
  match authorSearch content.data with
  | none => none
  | some cap =>
    let local_author := stripAuthorSuffix cap
    if local_author ∈ forbidden_words then none
    else if 2 ≤ local_author.length && local_author.length ≤ 4 &&
        pyFullHangul local_author then
      some (String.mk local_author)
    else none

/-! ## Email extraction: `extract_email` (crawler.py lines 390–402)

Pattern `\(([a-zA-Z0-9._%+-]+@ytn\.co\.kr)\)`: again the `+`-quantified class
excludes `@`, so maximal munch is exact. -/

/-- The regex class `[a-zA-Z0-9._%+-]`. -/
def emailChar (c : Char) : Bool :=
  ('a' ≤ c && c ≤ 'z') || ('A' ≤ c && c ≤ 'Z') || ('0' ≤ c && c ≤ '9') ||
  c == '.' || c == '_' || c == '%' || c == '+' || c == '-'

/-- Match the parenthesized address right after an opening parenthesis. -/
def emailAt (l : List Char) : Option String :=
  let run := l.takeWhile emailChar
  if run.length == 0 then none
  else if litMatch "@ytn.co.kr)".data (l.drop run.length) then
    some (String.mk (run ++ "@ytn.co.kr".data))
  else none

/-- `re.search` for the email pattern: positions left to right; only a
position holding `(` can start a match. -/
def emailSearch : List Char → Option String
  | [] => none
  | c :: rest =>
    if c == '(' then
      match emailAt rest with
      | some e => some e
      | none => emailSearch rest
    else emailSearch rest

/-- `CrawlerThread.extract_email` (crawler.py lines 390–402). -/
def extract_email (content : String) : Option String :=
  emailSearch content.data

/-! ## Data model and per-field extractors (crawler.py lines 284–339)

A parsed page (`BeautifulSoup` document) is abstracted by the text content of
the four CSS selectors the extractors query; `none` models `select_one`
returning no element. -/

/-- A parsed article page, by selector result. -/
structure Soup where
  /-- Text of `.news_title_wrap > .news_title > span:last-child`. -/
  titleElem : Option String
  /-- Text of `#CmAdContent > span`. -/
  contentElem : Option String
  /-- Text of `.top_menu > .menu > li.on > a`. -/
  categoryElem : Option String
  /-- Text of `.news_title_wrap inner > .news_info > .date`. -/
  dateElem : Option String
deriving DecidableEq

/-- Why a fetch task failed: transport error (`requests.RequestException`),
non-2xx status (`raise_for_status`), or an exception raised while parsing or
extracting. -/
inductive FetchError where
  | requestError (msg : String)
  | httpError (status : Nat)
  | parseError (msg : String)
deriving DecidableEq

/-- `str(e)` for a caught exception. -/
def errText : FetchError → String
  | .requestError m => m
  | .httpError s => "HTTP " ++ toString s
  | .parseError m => m

/-- The article dictionary built by `crawl_single_news_safe`
(crawler.py lines 241–253). -/
structure NewsRecord where
  category : String
  title : String
  content : String
  author : Option String
  email : Option String
  url : String
  posted_to_blog : Bool
  blog_url : String
  published_date : String
  thread_id : Nat
  index : Nat
deriving DecidableEq

/-- `CrawlerThread.extract_title` (crawler.py lines 284–296). -/
def extract_title (soup : Soup) : String :=
  match soup.titleElem with
  | some t => clean_content t
  | none => "제목을 찾을 수 없습니다"

/-- `CrawlerThread.extract_content` (crawler.py lines 298–310). -/
def extract_content (soup : Soup) : String :=
  match soup.contentElem with
  | some t => clean_content t
  | none => "뉴스 본문을 추출할 수 없습니다."

/-- `CrawlerThread.extract_category` (crawler.py lines 312–324); the `url`
argument is accepted but unused, as in the source. -/
def extract_category (url : String) (soup : Soup) : String :=
  match soup.categoryElem with
  | some t => t
  | none => "기타"

/-- `CrawlerThread.extract_published` (crawler.py lines 326–339); `now` is the
formatted current time used as the fallback. -/
def extract_published (soup : Soup) (now : String) : String :=
  match soup.dateElem with
  | some t => t
  | none => now

/-! ## Single-article fetcher: `crawl_single_news_safe` (lines 216–262)

The whole body runs inside one `try`: any fetch/parse error is caught at the
task boundary, a progress message is emitted and `None` is returned.  The
returned pair is (result, progress messages emitted by this task, in order). -/

/-- The error message emitted by the `except` handler of
`crawl_single_news_safe` (line 259). -/
def taskFailureMsg (tid : Nat) (url : String) (e : FetchError) : String :=
  "[Thread-" ++ toString tid ++ "] 개별 뉴스 크롤링 오류 (" ++ url ++ "): " ++ errText e

/-- `CrawlerThread.crawl_single_news_safe` (crawler.py lines 216–262).
`fetch` is the outcome of `requests.get` + `raise_for_status` +
`BeautifulSoup`; `tid` the worker thread id, `now` the formatted current
time. -/
def crawl_single_news_safe (tid : Nat) (now : String) (url : String) (index : Nat)
    (fetch : Except FetchError Soup) : Option NewsRecord × List String :=
  let startMsg := "[Thread-" ++ toString tid ++ "] 뉴스 " ++ toString index ++
    " 처리 시작: " ++ url
  match fetch with
  | .error e => (none, [startMsg, taskFailureMsg tid url e])
  | .ok soup =>
    let local_category := extract_category url soup
    let local_title := extract_title soup
    let local_content := extract_content soup
    let local_published_date := extract_published soup now
    let local_author := extract_author local_content
    let local_email := extract_email local_content
    let news : NewsRecord :=
      { category := local_category
        title := local_title
        content := local_content
        author := local_author
        email := local_email
        url := url
        posted_to_blog := false
        blog_url := ""
        published_date := local_published_date
        thread_id := tid
        index := index }
    (some news,
     [startMsg,
      "[Thread-" ++ toString tid ++ "] 뉴스 " ++ toString index ++ " 완료: " ++
        String.mk (local_title.data.take 50) ++ "..."])

/-! ## URL discovery: `get_news_urls` (crawler.py lines 125–214)

The POST to the listing endpoint is an external collaborator; its outcome is
either a raised `requests.RequestException` (transport error or
`raise_for_status` on a non-2xx status) or a response body together with the
result of `response.json()`.  A JSON value only matters to `get_news_urls`
through the checks it performs: `None`, non-list, or a list whose items are
dictionaries (read with `.get('join_key', '')` / `.get('mcd', '')`) or
non-dictionaries (on which `.get` raises, landing in the outer handler). -/

/-- One item of the parsed listing array. -/
inductive PyItem where
  | dict (join_key : Option String) (mcd : Option String)
  | nondict
deriving DecidableEq

/-- The parsed JSON listing payload, as far as `get_news_urls` inspects it. -/
inductive PyJson where
  | null
  | bool (b : Bool)
  | num (n : Int)
  | str (s : String)
  | arr (items : List PyItem)
  | obj
deriving DecidableEq

instance : DecidableEq (Except String PyJson) := fun a b =>
  match a, b with
  | .error x, .error y =>
    if h : x = y then isTrue (by rw [h]) else isFalse (by intro he; cases he; exact h rfl)
  | .error _, .ok _ => isFalse (by intro h; cases h)
  | .ok _, .error _ => isFalse (by intro h; cases h)
  | .ok x, .ok y =>
    if h : x = y then isTrue (by rw [h]) else isFalse (by intro he; cases he; exact h rfl)

/-- Outcome of the listing POST. -/
inductive ListingOutcome where
  | requestError (msg : String)
  | response (text : String) (parse : Except String PyJson)
deriving DecidableEq

/-- Python `str.strip()` on a `String`. -/
def pyStripStr (s : String) : String :=
  String.mk (pyStrip s.data)

/-- The article URL template (crawler.py line 204). -/
def itemUrl : PyItem → String
  | .dict jk mc => "https://www.ytn.co.kr/_ln/" ++ mc.getD "" ++ "_" ++ jk.getD ""
  | .nondict => ""

/-- The URL-building loop over `articles[:10]` (crawler.py lines 198–205):
a non-dictionary item raises `AttributeError` on `.get`, which the outer
`except Exception` turns into an empty result. -/
def buildUrls : List PyItem → Option (List String)
  | [] => some []
  | PyItem.dict jk mc :: rest =>
    match buildUrls rest with
    | some urls => some (itemUrl (PyItem.dict jk mc) :: urls)
    | none => none
  | PyItem.nondict :: _ => none

/-- `CrawlerThread.get_news_urls` (crawler.py lines 125–214). -/
def get_news_urls (o : ListingOutcome) : List String :=
  match o with
  | .requestError _ => []
  | .response text parse =>
    if text = "" ∨ pyStripStr text ∈ (["null", "", "false"] : List String) then []
    else
      match parse with
      | .error _ => []
      | .ok PyJson.null => []
      | .ok (PyJson.bool _) => []
      | .ok (PyJson.num _) => []
      | .ok (PyJson.str _) => []
      | .ok PyJson.obj => []
      | .ok (PyJson.arr items) => (buildUrls (items.take 10)).getD []

/-! ## Concurrent crawl orchestrator: `crawl_ytn_news` (lines 68–123)

`enumerate(target_urls)` is modelled as an index range with list lookup.
Each submitted future is the (pure) value of `crawl_single_news_safe` on its
URL; the nondeterministic `as_completed` order is an explicit parameter
`completion` (a permutation of the task indices in any real run — theorems
hypothesize exactly that).  Each task's own progress messages are emitted
concurrently in the real program; the trace below linearizes them at the
task's collection point, which preserves the multiset of emitted messages and
therefore membership and counting facts. -/

/-- The outcome of one crawl run: the aggregate returned to the caller, the
progress trace, and the list of URLs submitted to the worker pool. -/
structure CrawlRun where
  results : List NewsRecord
  messages : List String
  dispatched : List String
deriving DecidableEq

/-- One submitted task: `crawl_single_news_safe` on the `i`-th target URL
(crawler.py line 95, `executor.submit(self.crawl_single_news_safe, url, i+1)`). -/
def mkTask (tids : Nat → Nat) (now : String) (fetch : Nat → Except FetchError Soup)
    (urls : List String) (i : Nat) : Option NewsRecord × List String :=
  crawl_single_news_safe (tids i) now (urls.getD i "") (i + 1) (fetch i)

/-- The `as_completed` collection loop (crawler.py lines 99–116): walk the
futures in completion order, append each non-`None` result, bump the
completed counter and emit the per-success message. -/
def collectLoop (tasks : List (Option NewsRecord × List String)) :
    List Nat → Nat → List NewsRecord × List String
  | [], _ => ([], [])
  | idx :: rest, count =>
    match tasks[idx]? with
    | none => collectLoop tasks rest count
    | some t =>
      match t.1 with
      | some news =>
        (news :: (collectLoop tasks rest (count + 1)).1,
         t.2 ++ ("✅ 뉴스 " ++ toString (count + 1) ++ "개 수집 완료") ::
           (collectLoop tasks rest (count + 1)).2)
      | none => ((collectLoop tasks rest count).1, t.2 ++ (collectLoop tasks rest count).2)

/-- The progress message of the empty-discovery branch (crawler.py line 78). -/
def noLinksMsg : String := "⚠️ 뉴스 링크를 찾을 수 없습니다."

/-- `CrawlerThread.crawl_ytn_news` (crawler.py lines 68–123).
`target_count` is `self.target_count` (10 in the source); `o` the listing
POST outcome consumed by `get_news_urls`; `fetch i` the fetch outcome of the
`i`-th task; `tids i` its worker thread id; `completion` the order in which
the futures complete. -/
def crawl_ytn_news (target_count : Nat) (o : ListingOutcome)
    (fetch : Nat → Except FetchError Soup) (tids : Nat → Nat) (now : String)
    (completion : List Nat) : CrawlRun :=
  let connectMsg := "🌐 YTN 웹사이트에 접속하는 중..."
  let news_urls := get_news_urls o
  if news_urls = [] then
    { results := [], messages := [connectMsg, noLinksMsg], dispatched := [] }
  else
    let target_urls := news_urls.take target_count
    let n := target_urls.length
    let dispatchMsgs := (List.range n).map (fun i =>
      "📄 뉴스 " ++ toString (i + 1) ++ "/" ++ toString n ++ " 수집 시작...")
    let tasks := (List.range n).map (mkTask tids now fetch target_urls)
    let collected := collectLoop tasks completion 0
    { results := collected.1
      messages := [connectMsg,
          "📰 " ++ toString news_urls.length ++ "개 뉴스 링크를 발견했습니다."] ++
        dispatchMsgs ++ collected.2 ++
        ["🎉 크롤링 완료! 총 " ++ toString collected.1.length ++ "개 뉴스를 수집했습니다."]
      dispatched := target_urls }

/-! ## Theorems about URL discovery -/

theorem buildUrls_all_dict : ∀ (items : List PyItem),
    (∀ it ∈ items, it ≠ PyItem.nondict) →
    buildUrls items = some (items.map itemUrl) := by
  intro items
  induction items with
  | nil => intro _; rfl
  | cons it rest ih =>
    intro h
    cases it with
    | nondict => exact absurd rfl (h _ (List.mem_cons_self _ _))
    | dict jk mc =>
      have hrest := ih (fun x hx => h x (List.mem_cons_of_mem _ hx))
      simp [buildUrls, hrest]

/-- C6: URL discovery never raises past its boundary — on a transport error or
non-2xx status (a raised `requests.RequestException`), an empty/null/false
body, a body that fails JSON parsing, a parsed `null`, or a parsed value that
is not a list, `get_news_urls` returns the empty sequence. -/
theorem get_news_urls_failure_empty :
    (∀ msg, get_news_urls (.requestError msg) = []) ∧
    (∀ parse, get_news_urls (.response "" parse) = []) ∧
    (∀ text parse, pyStripStr text ∈ (["null", "", "false"] : List String) →
      get_news_urls (.response text parse) = []) ∧
    (∀ text e, get_news_urls (.response text (.error e)) = []) ∧
    (∀ text, get_news_urls (.response text (.ok PyJson.null)) = []) ∧
    (∀ text j, (∀ items, j ≠ PyJson.arr items) →
      get_news_urls (.response text (.ok j)) = []) := by
  refine ⟨fun msg => rfl, fun parse => by simp [get_news_urls], ?_, ?_, ?_, ?_⟩
  · intro text parse hmem
    simp [get_news_urls, hmem]
  · intro text e
    by_cases h : text = "" ∨ pyStripStr text ∈ (["null", "", "false"] : List String)
    · simp [get_news_urls, h]
    · simp [get_news_urls, h]
  · intro text
    by_cases h : text = "" ∨ pyStripStr text ∈ (["null", "", "false"] : List String)
    · simp [get_news_urls, h]
    · simp [get_news_urls, h]
  · intro text j hj
    cases j with
    | arr items => exact absurd rfl (hj items)
    | null => simp [get_news_urls, ite_self]
    | bool b => by_cases h : text = "" ∨ pyStripStr text ∈ (["null", "", "false"] : List String) <;>
        simp [get_news_urls, h]
    | num n => by_cases h : text = "" ∨ pyStripStr text ∈ (["null", "", "false"] : List String) <;>
        simp [get_news_urls, h]
    | str s => by_cases h : text = "" ∨ pyStripStr text ∈ (["null", "", "false"] : List String) <;>
        simp [get_news_urls, h]
    | obj => by_cases h : text = "" ∨ pyStripStr text ∈ (["null", "", "false"] : List String) <;>
        simp [get_news_urls, h]

/-- Witness for C6 at concrete failure outcomes. -/
theorem get_news_urls_failure_empty_witness :
    get_news_urls (.requestError "connection timed out") = [] ∧
    (pyStripStr "  null " ∈ (["null", "", "false"] : List String) ∧
      get_news_urls (.response "  null " (.ok (PyJson.arr [PyItem.dict (some "k") (some "m")]))) = []) ∧
    get_news_urls (.response "<html>" (.error "Expecting value")) = [] ∧
    ((∀ items, PyJson.num 3 ≠ PyJson.arr items) ∧
      get_news_urls (.response "3" (.ok (PyJson.num 3))) = []) := by
  refine ⟨?_, ⟨?_, ?_⟩, ?_, ⟨?_, ?_⟩⟩
  · exact get_news_urls_failure_empty.1 "connection timed out"
  · decide
  · exact get_news_urls_failure_empty.2.2.1 _ _ (by decide)
  · exact get_news_urls_failure_empty.2.2.2.1 "<html>" "Expecting value"
  · intro items h; cases h
  · exact get_news_urls_failure_empty.2.2.2.2.2 "3" _ (fun items h => by cases h)

/-- C5 counterexample: the claim says the returned URLs are pairwise
distinct, but `get_news_urls` performs no deduplication — a listing payload
with a repeated join-key/module-code pair yields a repeated URL. -/
theorem get_news_urls_dup_counterexample :
    get_news_urls (.response "x" (.ok (PyJson.arr
        [PyItem.dict (some "k") (some "m"), PyItem.dict (some "k") (some "m")])))
      = ["https://www.ytn.co.kr/_ln/m_k", "https://www.ytn.co.kr/_ln/m_k"] ∧
    ¬ (get_news_urls (.response "x" (.ok (PyJson.arr
        [PyItem.dict (some "k") (some "m"), PyItem.dict (some "k") (some "m")])))).Nodup := by
  constructor
  · decide
  · decide

/-- C5 amended: on a successful listing response whose payload is a list of
objects, `get_news_urls` returns the URLs built from the template
`https://www.ytn.co.kr/_ln/{mcd}_{join_key}` for the first at most ten items,
in listing order and without deduplication (repeated join-key/module-code
pairs yield repeated URLs), so the result has length at most 10 and every
element has the template form. -/
theorem get_news_urls_success_shape :
    ∀ (text : String) (items : List PyItem),
      text ≠ "" → pyStripStr text ∉ (["null", "", "false"] : List String) →
      (∀ it ∈ items, it ≠ PyItem.nondict) →
      get_news_urls (.response text (.ok (PyJson.arr items)))
          = (items.take 10).map itemUrl ∧
      (get_news_urls (.response text (.ok (PyJson.arr items)))).length ≤ 10 ∧
      ∀ u ∈ get_news_urls (.response text (.ok (PyJson.arr items))),
        ∃ jk mc, u = "https://www.ytn.co.kr/_ln/" ++ mc ++ "_" ++ jk := by
  intro text items htext hmem hdict
  have hcond : ¬ (text = "" ∨ pyStripStr text ∈ (["null", "", "false"] : List String)) :=
    not_or.mpr ⟨htext, hmem⟩
  have htake : ∀ it ∈ items.take 10, it ≠ PyItem.nondict :=
    fun it hit => hdict it (List.take_subset 10 items hit)
  have heq : get_news_urls (.response text (.ok (PyJson.arr items)))
      = (items.take 10).map itemUrl := by
    show (if text = "" ∨ pyStripStr text ∈ (["null", "", "false"] : List String)
        then ([] : List String) else (buildUrls (items.take 10)).getD [])
      = (items.take 10).map itemUrl
    rw [if_neg hcond, buildUrls_all_dict _ htake]
    rfl
  refine ⟨heq, ?_, ?_⟩
  · rw [heq, List.length_map]
    exact le_trans (List.length_take_le 10 items) (le_refl 10)
  · intro u hu
    rw [heq] at hu
    obtain ⟨it, hit, rfl⟩ := List.mem_map.mp hu
    cases it with
    | nondict => exact absurd rfl (htake _ hit)
    | dict jk mc => exact ⟨jk.getD "", mc.getD "", rfl⟩

/-- Witness for C5 (amended) at a concrete duplicated payload. -/
theorem get_news_urls_success_shape_witness :
    ("x" ≠ "" ∧ pyStripStr "x" ∉ (["null", "", "false"] : List String)) ∧
    get_news_urls (.response "x" (.ok (PyJson.arr
        [PyItem.dict (some "a") (some "b"), PyItem.dict (some "a") (some "b")])))
      = ["https://www.ytn.co.kr/_ln/b_a", "https://www.ytn.co.kr/_ln/b_a"] ∧
    (get_news_urls (.response "x" (.ok (PyJson.arr
        [PyItem.dict (some "a") (some "b"), PyItem.dict (some "a") (some "b")])))).length ≤ 10 := by
  have h := get_news_urls_success_shape "x"
    [PyItem.dict (some "a") (some "b"), PyItem.dict (some "a") (some "b")]
    (by decide) (by decide) (by decide)
  exact ⟨⟨by decide, by decide⟩, by rw [h.1]; rfl, h.2.1⟩

/-! ## Theorems about the orchestrator -/

theorem crawl_ytn_news_empty_branch (tc : Nat) (o : ListingOutcome)
    (fetch : Nat → Except FetchError Soup) (tids : Nat → Nat) (now : String)
    (completion : List Nat) (h : get_news_urls o = []) :
    crawl_ytn_news tc o fetch tids now completion
      = { results := [], messages := ["🌐 YTN 웹사이트에 접속하는 중...", noLinksMsg],
          dispatched := [] } := by
  simp [crawl_ytn_news, h]

theorem crawl_ytn_news_main_branch (tc : Nat) (o : ListingOutcome)
    (fetch : Nat → Except FetchError Soup) (tids : Nat → Nat) (now : String)
    (completion : List Nat) (h : ¬ get_news_urls o = []) :
    crawl_ytn_news tc o fetch tids now completion
      = { results := (collectLoop ((List.range ((get_news_urls o).take tc).length).map
            (mkTask tids now fetch ((get_news_urls o).take tc))) completion 0).1
          messages := ["🌐 YTN 웹사이트에 접속하는 중...",
              "📰 " ++ toString (get_news_urls o).length ++ "개 뉴스 링크를 발견했습니다."] ++
            (List.range ((get_news_urls o).take tc).length).map (fun i =>
              "📄 뉴스 " ++ toString (i + 1) ++ "/" ++
                toString ((get_news_urls o).take tc).length ++ " 수집 시작...") ++
            (collectLoop ((List.range ((get_news_urls o).take tc).length).map
              (mkTask tids now fetch ((get_news_urls o).take tc))) completion 0).2 ++
            ["🎉 크롤링 완료! 총 " ++
              toString (collectLoop ((List.range ((get_news_urls o).take tc).length).map
                (mkTask tids now fetch ((get_news_urls o).take tc))) completion 0).1.length ++
              "개 뉴스를 수집했습니다."]
          dispatched := (get_news_urls o).take tc } := by
  simp [crawl_ytn_news, h]

/-- C7: when URL discovery yields no links, the orchestrator returns the empty
aggregate at once, submits no task to the worker pool, and its progress trace
is exactly the connect message followed by one zero-links message (so the
zero-links message is emitted exactly once). -/
theorem empty_discovery_short_circuit :
    ∀ (tc : Nat) (o : ListingOutcome) (fetch : Nat → Except FetchError Soup)
      (tids : Nat → Nat) (now : String) (completion : List Nat),
      get_news_urls o = [] →
      (crawl_ytn_news tc o fetch tids now completion).results = [] ∧
      (crawl_ytn_news tc o fetch tids now completion).dispatched = [] ∧
      (crawl_ytn_news tc o fetch tids now completion).messages
        = ["🌐 YTN 웹사이트에 접속하는 중...", noLinksMsg] ∧
      ((crawl_ytn_news tc o fetch tids now completion).messages.count noLinksMsg) = 1 := by
  intro tc o fetch tids now completion h
  rw [crawl_ytn_news_empty_branch tc o fetch tids now completion h]
  refine ⟨rfl, rfl, rfl, ?_⟩
  decide

/-- Witness for C7 at a concrete failed-discovery run. -/
theorem empty_discovery_short_circuit_witness :
    get_news_urls (.requestError "boom") = [] ∧
    (crawl_ytn_news 10 (.requestError "boom") (fun _ => Except.error (.requestError ""))
        (fun i => i) "2026-01-01 00:00" []).results = [] ∧
    (crawl_ytn_news 10 (.requestError "boom") (fun _ => Except.error (.requestError ""))
        (fun i => i) "2026-01-01 00:00" []).dispatched = [] ∧
    ((crawl_ytn_news 10 (.requestError "boom") (fun _ => Except.error (.requestError ""))
        (fun i => i) "2026-01-01 00:00" []).messages.count noLinksMsg) = 1 := by
  have h := empty_discovery_short_circuit 10 (.requestError "boom")
    (fun _ => Except.error (.requestError "")) (fun i => i) "2026-01-01 00:00" [] rfl
  exact ⟨rfl, h.1, h.2.1, h.2.2.2⟩

theorem collectLoop_results (tasks : List (Option NewsRecord × List String)) :
    ∀ (comp : List Nat) (c : Nat),
      (collectLoop tasks comp c).1
        = comp.filterMap (fun idx => tasks[idx]?.bind Prod.fst) := by
  intro comp
  induction comp with
  | nil => intro c; rfl
  | cons idx rest ih =>
    intro c
    cases h : tasks[idx]? with
    | none => simp [collectLoop, h, List.filterMap_cons, ih c]
    | some t =>
      cases ht : t.1 with
      | none => simp [collectLoop, h, ht, List.filterMap_cons, ih c]
      | some news => simp [collectLoop, h, ht, List.filterMap_cons, ih (c + 1)]

theorem collectLoop_msg_mem (tasks : List (Option NewsRecord × List String)) :
    ∀ (comp : List Nat) (c : Nat) {idx : Nat} {t : Option NewsRecord × List String}
      {m : String}, idx ∈ comp → tasks[idx]? = some t → m ∈ t.2 →
      m ∈ (collectLoop tasks comp c).2 := by
  intro comp
  induction comp with
  | nil => intro c idx t m hmem _ _; exact absurd hmem (List.not_mem_nil idx)
  | cons j rest ih =>
    intro c idx t m hmem hget hm
    rcases List.mem_cons.mp hmem with heq | hrest
    · subst heq
      cases ht : t.1 with
      | some news =>
        have hstep : (collectLoop tasks (idx :: rest) c).2
            = t.2 ++ ("✅ 뉴스 " ++ toString (c + 1) ++ "개 수집 완료") ::
                (collectLoop tasks rest (c + 1)).2 := by
          simp [collectLoop, hget, ht]
        rw [hstep]
        exact List.mem_append_left _ hm
      | none =>
        have hstep : (collectLoop tasks (idx :: rest) c).2
            = t.2 ++ (collectLoop tasks rest c).2 := by
          simp [collectLoop, hget, ht]
        rw [hstep]
        exact List.mem_append_left _ hm
    · cases hj : tasks[j]? with
      | none =>
        have hstep : collectLoop tasks (j :: rest) c = collectLoop tasks rest c := by
          simp [collectLoop, hj]
        rw [hstep]
        exact ih c hrest hget hm
      | some t' =>
        cases ht' : t'.1 with
        | some news =>
          have hstep : (collectLoop tasks (j :: rest) c).2
              = t'.2 ++ ("✅ 뉴스 " ++ toString (c + 1) ++ "개 수집 완료") ::
                  (collectLoop tasks rest (c + 1)).2 := by
            simp [collectLoop, hj, ht']
          rw [hstep]
          exact List.mem_append_right _ (List.mem_cons_of_mem _ (ih (c + 1) hrest hget hm))
        | none =>
          have hstep : (collectLoop tasks (j :: rest) c).2
              = t'.2 ++ (collectLoop tasks rest c).2 := by
            simp [collectLoop, hj, ht']
          rw [hstep]
          exact List.mem_append_right _ (ih c hrest hget hm)

theorem tasks_get?_eq (tids : Nat → Nat) (now : String)
    (fetch : Nat → Except FetchError Soup) (urls : List String) {i n : Nat} (h : i < n) :
    ((List.range n).map (mkTask tids now fetch urls))[i]?
      = some (mkTask tids now fetch urls i) := by
  rw [List.getElem?_map, List.getElem?_range h]
  rfl

theorem crawl_single_fst_some {tid : Nat} {now url : String} {index : Nat}
    {e : Except FetchError Soup} {news : NewsRecord}
    (h : (crawl_single_news_safe tid now url index e).1 = some news) :
    news.url = url ∧ news.posted_to_blog = false ∧ news.blog_url = "" ∧
    ∃ soup, e = Except.ok soup ∧ news.title = extract_title soup ∧
      news.content = extract_content soup := by
  cases e with
  | error err => exact Option.noConfusion h
  | ok soup =>
    have h2 : some
        ({ category := extract_category url soup,
           title := extract_title soup, content := extract_content soup,
           author := extract_author (extract_content soup),
           email := extract_email (extract_content soup), url := url,
           posted_to_blog := false, blog_url := "",
           published_date := extract_published soup now,
           thread_id := tid, index := index } : NewsRecord) = some news := h
    injection h2 with h2
    subst h2
    exact ⟨rfl, rfl, rfl, soup, rfl, rfl, rfl⟩

/-- C1: every record returned by `crawl_single_news_safe` carries the task's
URL, a title and a content that are exactly the (total, never-null) extractor
outputs — the extractors substitute placeholder strings on a selector miss —
and is created with `posted_to_blog = false` and `blog_url = ""`; every record
the orchestrator folds into the aggregate satisfies the creation defaults. -/
theorem emitted_record_invariants :
    (∀ (tid : Nat) (now url : String) (index : Nat) (e : Except FetchError Soup)
        (news : NewsRecord),
        (crawl_single_news_safe tid now url index e).1 = some news →
        news.url = url ∧ news.posted_to_blog = false ∧ news.blog_url = "" ∧
        ∃ soup, e = Except.ok soup ∧ news.title = extract_title soup ∧
          news.content = extract_content soup) ∧
    (∀ (tc : Nat) (o : ListingOutcome) (fetch : Nat → Except FetchError Soup)
        (tids : Nat → Nat) (now : String) (completion : List Nat) (news : NewsRecord),
        news ∈ (crawl_ytn_news tc o fetch tids now completion).results →
        news.posted_to_blog = false ∧ news.blog_url = "") := by
  constructor
  · intro tid now url index e news h
    exact crawl_single_fst_some h
  · intro tc o fetch tids now completion news hmem
    by_cases hurls : get_news_urls o = []
    · rw [crawl_ytn_news_empty_branch tc o fetch tids now completion hurls] at hmem
      exact absurd hmem (List.not_mem_nil news)
    · rw [crawl_ytn_news_main_branch tc o fetch tids now completion hurls] at hmem
      rw [collectLoop_results] at hmem
      obtain ⟨idx, hidx, hbind⟩ := List.mem_filterMap.mp hmem
      cases hopt : (((List.range ((get_news_urls o).take tc).length).map
          (mkTask tids now fetch ((get_news_urls o).take tc))))[idx]? with
      | none => rw [hopt] at hbind; exact Option.noConfusion hbind
      | some t =>
        rw [hopt, Option.some_bind] at hbind
        rw [List.getElem?_map] at hopt
        cases ho2 : (List.range ((get_news_urls o).take tc).length)[idx]? with
        | none => rw [ho2] at hopt; exact Option.noConfusion hopt
        | some a =>
          rw [ho2] at hopt
          simp only [Option.map_some'] at hopt
          injection hopt with hopt
          rw [← hopt] at hbind
          rw [mkTask] at hbind
          obtain ⟨_, hb, hbl, _⟩ := crawl_single_fst_some hbind
          exact ⟨hb, hbl⟩

/-- Witness for C1: a concrete successful fetch and a concrete one-article
run. -/
theorem emitted_record_invariants_witness :
    ((crawl_single_news_safe 1 "N" "u" 1
        (Except.ok ⟨some "T", some "B", some "C", some "D"⟩)).1
      = some { category := "C", title := "T", content := "B", author := none,
               email := none, url := "u", posted_to_blog := false, blog_url := "",
               published_date := "D", thread_id := 1, index := 1 } ∧
     ({ category := "C", title := "T", content := "B", author := none,
        email := none, url := "u", posted_to_blog := false, blog_url := "",
        published_date := "D", thread_id := 1, index := 1 } : NewsRecord).url = "u") ∧
    (({ category := "C", title := "T", content := "B", author := none,
        email := none, url := "https://www.ytn.co.kr/_ln/m_k",
        posted_to_blog := false, blog_url := "", published_date := "D",
        thread_id := 7, index := 1 } : NewsRecord)
        ∈ (crawl_ytn_news 10 (.response "x" (.ok (PyJson.arr [PyItem.dict (some "k") (some "m")])))
            (fun _ => Except.ok ⟨some "T", some "B", some "C", some "D"⟩)
            (fun _ => 7) "N" [0]).results ∧
     ({ category := "C", title := "T", content := "B", author := none,
        email := none, url := "https://www.ytn.co.kr/_ln/m_k",
        posted_to_blog := false, blog_url := "", published_date := "D",
        thread_id := 7, index := 1 } : NewsRecord).posted_to_blog = false ∧
     ({ category := "C", title := "T", content := "B", author := none,
        email := none, url := "https://www.ytn.co.kr/_ln/m_k",
        posted_to_blog := false, blog_url := "", published_date := "D",
        thread_id := 7, index := 1 } : NewsRecord).blog_url = "") := by
  refine ⟨⟨by decide, ?_⟩, ⟨by decide, ?_⟩⟩
  · exact (emitted_record_invariants.1 1 "N" "u" 1
      (Except.ok ⟨some "T", some "B", some "C", some "D"⟩)
      { category := "C", title := "T", content := "B", author := none,
        email := none, url := "u", posted_to_blog := false, blog_url := "",
        published_date := "D", thread_id := 1, index := 1 } (by decide)).1
  · exact emitted_record_invariants.2 10
      (.response "x" (.ok (PyJson.arr [PyItem.dict (some "k") (some "m")])))
      (fun _ => Except.ok ⟨some "T", some "B", some "C", some "D"⟩)
      (fun _ => 7) "N" [0]
      { category := "C", title := "T", content := "B", author := none,
        email := none, url := "https://www.ytn.co.kr/_ln/m_k",
        posted_to_blog := false, blog_url := "", published_date := "D",
        thread_id := 7, index := 1 } (by decide)

/-- C2: failure isolation.  For every crawl run whose futures complete in some
permutation of the task indices: a task whose fetch raised is caught at the
task boundary (its result is `none`, conjunct 3), its failure progress message
is still present in the run's trace (conjunct 1), and the run returns exactly
the records of the non-failing tasks — the aggregate is a permutation of the
successful task results, so one task's failure never aborts the run or drops
another task's record (conjunct 2). -/
theorem failure_isolation :
    ∀ (tc : Nat) (o : ListingOutcome) (fetch : Nat → Except FetchError Soup)
      (tids : Nat → Nat) (now : String) (completion : List Nat),
      completion.Perm (List.range ((get_news_urls o).take tc).length) →
      (∀ (i : Nat) (e : FetchError), i < ((get_news_urls o).take tc).length →
          fetch i = Except.error e →
          taskFailureMsg (tids i) (((get_news_urls o).take tc).getD i "") e
            ∈ (crawl_ytn_news tc o fetch tids now completion).messages) ∧
      (crawl_ytn_news tc o fetch tids now completion).results.Perm
        ((List.range ((get_news_urls o).take tc).length).filterMap
          (fun i => (mkTask tids now fetch ((get_news_urls o).take tc) i).1)) ∧
      (∀ (i : Nat) (e : FetchError), fetch i = Except.error e →
          (mkTask tids now fetch ((get_news_urls o).take tc) i).1 = none) := by
  intro tc o fetch tids now completion hperm
  refine ⟨?_, ?_, ?_⟩
  · intro i e hi he
    by_cases hurls : get_news_urls o = []
    · rw [hurls] at hi
      simp at hi
    · rw [crawl_ytn_news_main_branch tc o fetch tids now completion hurls]
      have hmemc : i ∈ completion := hperm.mem_iff.2 (List.mem_range.2 hi)
      have hget := tasks_get?_eq tids now fetch ((get_news_urls o).take tc) hi
      have hmsg : taskFailureMsg (tids i) (((get_news_urls o).take tc).getD i "") e
          ∈ (mkTask tids now fetch ((get_news_urls o).take tc) i).2 := by
        rw [mkTask, he]
        simp [crawl_single_news_safe]
      have hcoll := collectLoop_msg_mem
        ((List.range ((get_news_urls o).take tc).length).map
          (mkTask tids now fetch ((get_news_urls o).take tc)))
        completion 0 hmemc hget hmsg
      exact List.mem_append_left _ (List.mem_append_right _ hcoll)
  · by_cases hurls : get_news_urls o = []
    · rw [crawl_ytn_news_empty_branch tc o fetch tids now completion hurls, hurls]
      simp
    · rw [crawl_ytn_news_main_branch tc o fetch tids now completion hurls]
      have h1 := hperm.filterMap (fun idx =>
        ((List.range ((get_news_urls o).take tc).length).map
          (mkTask tids now fetch ((get_news_urls o).take tc)))[idx]?.bind Prod.fst)
      have h2 : (List.range ((get_news_urls o).take tc).length).filterMap (fun idx =>
            ((List.range ((get_news_urls o).take tc).length).map
              (mkTask tids now fetch ((get_news_urls o).take tc)))[idx]?.bind Prod.fst)
          = (List.range ((get_news_urls o).take tc).length).filterMap
            (fun i => (mkTask tids now fetch ((get_news_urls o).take tc) i).1) := by
        refine List.filterMap_congr ?_
        intro i hi
        rw [tasks_get?_eq tids now fetch ((get_news_urls o).take tc) (List.mem_range.1 hi),
          Option.some_bind]
      rw [collectLoop_results, ← h2]
      exact h1
  · intro i e he
    rw [mkTask, he]
    simp [crawl_single_news_safe]

/-- Witness for C2: a two-article run whose second fetch raises; the failure
message is in the trace and the aggregate holds exactly the other record. -/
theorem failure_isolation_witness :
    ([1, 0] : List Nat).Perm (List.range ((get_news_urls
        (.response "x" (.ok (PyJson.arr [PyItem.dict (some "k1") (some "m"),
          PyItem.dict (some "k2") (some "m")])))).take 10).length) ∧
    taskFailureMsg 3 (((get_news_urls
        (.response "x" (.ok (PyJson.arr [PyItem.dict (some "k1") (some "m"),
          PyItem.dict (some "k2") (some "m")])))).take 10).getD 1 "")
        (.requestError "timeout")
      ∈ (crawl_ytn_news 10
          (.response "x" (.ok (PyJson.arr [PyItem.dict (some "k1") (some "m"),
            PyItem.dict (some "k2") (some "m")])))
          (fun i => if i == 0 then Except.ok ⟨some "T", some "B", some "C", some "D"⟩
            else Except.error (.requestError "timeout"))
          (fun _ => 3) "N" [1, 0]).messages ∧
    (crawl_ytn_news 10
        (.response "x" (.ok (PyJson.arr [PyItem.dict (some "k1") (some "m"),
          PyItem.dict (some "k2") (some "m")])))
        (fun i => if i == 0 then Except.ok ⟨some "T", some "B", some "C", some "D"⟩
          else Except.error (.requestError "timeout"))
        (fun _ => 3) "N" [1, 0]).results.Perm
      ((List.range ((get_news_urls
          (.response "x" (.ok (PyJson.arr [PyItem.dict (some "k1") (some "m"),
            PyItem.dict (some "k2") (some "m")])))).take 10).length).filterMap
        (fun i => (mkTask (fun _ => 3) "N"
          (fun i => if i == 0 then Except.ok ⟨some "T", some "B", some "C", some "D"⟩
            else Except.error (.requestError "timeout"))
          ((get_news_urls
            (.response "x" (.ok (PyJson.arr [PyItem.dict (some "k1") (some "m"),
              PyItem.dict (some "k2") (some "m")])))).take 10) i).1)) := by
  have h := failure_isolation 10
    (.response "x" (.ok (PyJson.arr [PyItem.dict (some "k1") (some "m"),
      PyItem.dict (some "k2") (some "m")])))
    (fun i => if i == 0 then Except.ok ⟨some "T", some "B", some "C", some "D"⟩
      else Except.error (.requestError "timeout"))
    (fun _ => 3) "N" [1, 0] (by decide)
  exact ⟨by decide, h.1 1 (.requestError "timeout") (by decide) rfl, h.2.1⟩

/-- C10: for every URL whose GET and parse succeed, `crawl_single_news_safe`
returns a record, never `None`; a selector miss for title, content or
category substitutes the fixed placeholder strings "제목을 찾을 수 없습니다",
"뉴스 본문을 추출할 수 없습니다." and "기타" respectively; `None` is returned
only from the exception handler (transport error, non-2xx status, or an
exception while parsing/extracting). -/
theorem success_always_record :
    (∀ (tid : Nat) (now url : String) (index : Nat) (soup : Soup),
        ∃ news, (crawl_single_news_safe tid now url index (Except.ok soup)).1
          = some news) ∧
    (∀ soup : Soup, soup.titleElem = none →
        extract_title soup = "제목을 찾을 수 없습니다") ∧
    (∀ soup : Soup, soup.contentElem = none →
        extract_content soup = "뉴스 본문을 추출할 수 없습니다.") ∧
    (∀ (url : String) (soup : Soup), soup.categoryElem = none →
        extract_category url soup = "기타") ∧
    (∀ (tid : Nat) (now url : String) (index : Nat) (e : FetchError),
        (crawl_single_news_safe tid now url index (Except.error e)).1 = none) := by
  refine ⟨?_, ?_, ?_, ?_, ?_⟩
  · intro tid now url index soup
    exact ⟨_, rfl⟩
  · intro soup h
    simp [extract_title, h]
  · intro soup h
    simp [extract_content, h]
  · intro url soup h
    simp [extract_category, h]
  · intro tid now url index e
    rfl

/-- Witness for C10 at a page matching no selector and at a failed fetch. -/
theorem success_always_record_witness :
    (∃ news, (crawl_single_news_safe 2 "N" "u" 1
        (Except.ok ⟨none, none, none, none⟩)).1 = some news) ∧
    ((⟨none, none, none, none⟩ : Soup).titleElem = none ∧
      extract_title ⟨none, none, none, none⟩ = "제목을 찾을 수 없습니다") ∧
    ((⟨none, none, none, none⟩ : Soup).contentElem = none ∧
      extract_content ⟨none, none, none, none⟩ = "뉴스 본문을 추출할 수 없습니다.") ∧
    ((⟨none, none, none, none⟩ : Soup).categoryElem = none ∧
      extract_category "u" ⟨none, none, none, none⟩ = "기타") ∧
    (crawl_single_news_safe 2 "N" "u" 1 (Except.error (.httpError 500))).1 = none := by
  refine ⟨success_always_record.1 2 "N" "u" 1 ⟨none, none, none, none⟩,
    ⟨rfl, success_always_record.2.1 ⟨none, none, none, none⟩ rfl⟩,
    ⟨rfl, success_always_record.2.2.1 ⟨none, none, none, none⟩ rfl⟩,
    ⟨rfl, success_always_record.2.2.2.1 "u" ⟨none, none, none, none⟩ rfl⟩,
    success_always_record.2.2.2.2 2 "N" "u" 1 (.httpError 500)⟩

/-- C4 counterexample: a page that fetches and parses but matches neither the
title nor the content selector still yields a record — the fetcher does not
return `None` as the claim states. -/
theorem selector_miss_null_counterexample :
    (crawl_single_news_safe 1 "N" "u" 1 (Except.ok ⟨none, none, none, none⟩)).1
      ≠ none := by
  decide

/-- C4 amended: when the HTTP GET succeeds and the page parses but the page
structure matches neither the title selector nor the content selector,
`crawl_single_news_safe` returns a record whose title and content are the
fixed placeholder strings, rather than `None` (which it returns only from the
exception handler). -/
theorem selector_miss_placeholder_record :
    ∀ (tid : Nat) (now url : String) (index : Nat) (soup : Soup),
      soup.titleElem = none → soup.contentElem = none →
      ∃ news, (crawl_single_news_safe tid now url index (Except.ok soup)).1
          = some news ∧
        news.title = "제목을 찾을 수 없습니다" ∧
        news.content = "뉴스 본문을 추출할 수 없습니다." := by
  intro tid now url index soup ht hc
  refine ⟨_, rfl, ?_, ?_⟩
  · simp [extract_title, ht]
  · simp [extract_content, hc]

/-- Witness for C4 (amended) at a concrete selector-less page. -/
theorem selector_miss_placeholder_record_witness :
    ((⟨none, none, none, none⟩ : Soup).titleElem = none ∧
     (⟨none, none, none, none⟩ : Soup).contentElem = none) ∧
    ∃ news, (crawl_single_news_safe 4 "N" "u" 2
        (Except.ok ⟨none, none, none, none⟩)).1 = some news ∧
      news.title = "제목을 찾을 수 없습니다" ∧
      news.content = "뉴스 본문을 추출할 수 없습니다." :=
  ⟨⟨rfl, rfl⟩, selector_miss_placeholder_record 4 "N" "u" 2 ⟨none, none, none, none⟩ rfl rfl⟩

/-! ## Theorems about author extraction -/

theorem takeWhile_all (p : Char → Bool) (l : List Char) :
    (l.takeWhile p).all p = true := by
  induction l with
  | nil => rfl
  | cons c rest ih =>
    by_cases h : p c = true
    · simp [List.takeWhile_cons, h, ih]
    · simp [List.takeWhile_cons, h]

theorem all_take {p : Char → Bool} {l : List Char} (h : l.all p = true) (k : Nat) :
    (l.take k).all p = true :=
  List.all_eq_true.2 (fun x hx => List.all_eq_true.1 h x (List.take_subset k l hx))

theorem hangulCapture_all {rest : List Char} {b : Bool} {cap : List Char}
    (h : hangulCapture rest b = some cap) : cap.all hangul = true := by
  simp only [hangulCapture] at h
  split at h
  · exact Option.noConfusion h
  · split at h
    · split at h
      · injection h with h
        subst h
        exact all_take (takeWhile_all hangul rest) 4
      · split at h
        · injection h with h
          subst h
          exact all_take (takeWhile_all hangul rest) 3
        · split at h
          · injection h with h
            subst h
            exact all_take (takeWhile_all hangul rest) 2
          · exact Option.noConfusion h
    · injection h with h
      subst h
      exact all_take (takeWhile_all hangul rest) 4

theorem tailMatch_all {l : List Char} {b : Bool} {cap : List Char}
    (h : tailMatch l b = some cap) : cap.all hangul = true := by
  simp only [tailMatch] at h
  split at h
  · exact Option.noConfusion h
  · exact hangulCapture_all h

theorem groupTailMatch_all {l : List Char} {b : Bool} {cap : List Char}
    (h : groupTailMatch l b = some cap) : cap.all hangul = true := by
  simp only [groupTailMatch] at h
  split at h
  · exact Option.noConfusion h
  · split at h
    · exact Option.noConfusion h
    · exact tailMatch_all h

theorem matchAtYTN_all {l : List Char} {b : Bool} {cap : List Char}
    (h : matchAtYTN l b = some cap) : cap.all hangul = true := by
  simp only [matchAtYTN] at h
  cases hg : groupTailMatch l b with
  | some cap2 =>
    simp only [hg] at h
    injection h with h
    subst h
    exact groupTailMatch_all hg
  | none =>
    simp only [hg] at h
    exact tailMatch_all h

theorem reSearchAuthor_all (b : Bool) : ∀ (l : List Char) {cap : List Char},
    reSearchAuthor b l = some cap → cap.all hangul = true := by
  intro l
  induction l with
  | nil => intro cap h; exact Option.noConfusion h
  | cons c rest ih =>
    intro cap h
    simp only [reSearchAuthor] at h
    split at h
    · cases hm : matchAtYTN ((c :: rest).drop 3) b with
      | some cap2 =>
        rw [hm] at h
        injection h with h
        subst h
        exact matchAtYTN_all hm
      | none =>
        rw [hm] at h
        exact ih h
    · exact ih h

theorem authorSearch_all {l : List Char} {cap : List Char}
    (h : authorSearch l = some cap) : cap.all hangul = true := by
  simp only [authorSearch] at h
  cases h1 : reSearchAuthor true l with
  | some c2 =>
    simp only [h1] at h
    injection h with h
    subst h
    exact reSearchAuthor_all true l h1
  | none =>
    simp only [h1] at h
    exact reSearchAuthor_all false l h

theorem stripAuthorSuffix_all {cap : List Char} (h : cap.all hangul = true) :
    (stripAuthorSuffix cap).all hangul = true := by
  cases hf : author_suffixes.find? (fun suf => endsWith suf cap) with
  | none => simpa only [stripAuthorSuffix, hf] using h
  | some suf =>
    simp only [stripAuthorSuffix, hf]
    exact all_take h _

/-- C8: author extraction optionality and validity — when neither byline
pattern matches the content, `extract_author` returns `None` (and, being a
total function, cannot raise); when the matched candidate, after suffix
stripping, is one of the blocklisted staff-role words (e.g. "취재팀"), it
returns `None`; and every non-`None` result is a name of 2 to 4 Hangul
characters. -/
theorem extract_author_optionality :
    (∀ s : String, authorSearch s.data = none → extract_author s = none) ∧
    (∀ (s : String) (cap : List Char), authorSearch s.data = some cap →
        stripAuthorSuffix cap ∈ forbidden_words → extract_author s = none) ∧
    (∀ (s a : String), extract_author s = some a →
        2 ≤ a.length ∧ a.length ≤ 4 ∧ a.data.all hangul = true) := by
  refine ⟨?_, ?_, ?_⟩
  · intro s h
    simp [extract_author, h]
  · intro s cap hcap hforb
    simp [extract_author, hcap, hforb]
  · intro s a h
    cases hs : authorSearch s.data with
    | none => simp [extract_author, hs] at h
    | some cap =>
      have hall : (stripAuthorSuffix cap).all hangul = true :=
        stripAuthorSuffix_all (authorSearch_all hs)
      simp only [extract_author, hs] at h
      split at h
      · exact Option.noConfusion h
      · split at h
        · rename_i hcond
          injection h with h
          subst h
          rw [Bool.and_eq_true, Bool.and_eq_true] at hcond
          exact ⟨of_decide_eq_true hcond.1.1, of_decide_eq_true hcond.1.2, hall⟩
        · exact Option.noConfusion h

/-- Witness for C8: no byline, a blocklisted byline, and a real byline. -/
theorem extract_author_optionality_witness :
    (authorSearch "안녕하세요".data = none ∧ extract_author "안녕하세요" = none) ∧
    (authorSearch "YTN 취재팀".data = some "취재팀".data ∧
      stripAuthorSuffix "취재팀".data ∈ forbidden_words ∧
      extract_author "YTN 취재팀" = none) ∧
    (extract_author "YTN 김철수입니다" = some "김철수" ∧
      2 ≤ ("김철수" : String).length ∧ ("김철수" : String).length ≤ 4 ∧
      ("김철수" : String).data.all hangul = true) := by
  refine ⟨⟨by decide, extract_author_optionality.1 "안녕하세요" (by decide)⟩,
    ⟨by decide, by decide,
      extract_author_optionality.2.1 "YTN 취재팀" ("취재팀".data) (by decide) (by decide)⟩,
    ⟨by decide, extract_author_optionality.2.2 "YTN 김철수입니다" "김철수" (by decide)⟩⟩
